import Mathlib

/-!
# Verification of `makefile_ci_patch.py`

A shallow embedding of the line-patching script `makefile_ci_patch.py`.
The script reads a Makefile, removes a path-metacharacter guard block
(`'METACHARACTERS' in line` starts the block, a line whose stripped text
starts with `endif` ends it), removes lines containing
`cowardly refusing to build`, re-quotes `python -c <code>` invocations,
and writes the result to `Makefile.ci`.

Text is modelled as `List Char` (one entry per input line, as produced by
`readlines`, so every element is newline-terminated except possibly the
last).  Fallible behaviour (the `re.sub` replacement-template parse can
raise `re.error`) is modelled with `Except`.
-/

/-- A line of text, one character per entry. -/
abbrev Line := List Char

deriving instance DecidableEq for Except

/-- The guard-block start marker tested by `'METACHARACTERS' in line`. -/
def metaMarker : Line := "METACHARACTERS".data

/-- The fixed error phrase tested by `'cowardly refusing to build' in line`. -/
def cowardlyPhrase : Line := "cowardly refusing to build".data

/-- The block terminator keyword of `line.strip().startswith('endif')`. -/
def endifKw : Line := "endif".data

/-- The literal part `python -c ` of the regular expression. -/
def pycLit : Line := "python -c ".data

/-- The fixed output path `dst_path = "Makefile.ci"`. -/
def dstPath : Line := "Makefile.ci".data

/-- The usage message printed when `len(sys.argv) != 2`. -/
def usageMsg : Line := "Usage: python makefile_ci_patch.py <path_to_official_Makefile>".data

/-- The success message `f"Patched Makefile written to {dst_path}"`. -/
def successMsg : Line := "Patched Makefile written to Makefile.ci".data

/-- The double-quote character. -/
def dquote : Char := Char.ofNat 34

/-- The single-quote character. -/
def squote : Char := Char.ofNat 39

/-- The backslash character. -/
def bsl : Char := '\\'

/-- Python's `pat in s` substring test. -/
def containsSub (pat : Line) : Line → Bool
  | [] => pat.isEmpty
  | c :: t => pat.isPrefixOf (c :: t) || containsSub pat t

/-- The ASCII characters removed by Python's `str.strip()` with no argument
(`str.isspace` characters; non-ASCII whitespace such as U+00A0 is not
modelled, no claim exercises it). -/
def pyIsSpace (c : Char) : Bool :=
  c == ' ' || c == '\t' || c == '\n' || c == '\r' || c == '\x0b' || c == '\x0c' ||
  c == '\x1c' || c == '\x1d' || c == '\x1e' || c == '\x1f' || c == '\x85'

/-- Python's `s.strip()`: drop leading and trailing whitespace. -/
def pyStrip (s : Line) : Line :=
  ((s.dropWhile pyIsSpace).reverse.dropWhile pyIsSpace).reverse

/-- The terminator test `line.strip().startswith('endif')`. -/
def trimStartsEndif (l : Line) : Bool := endifKw.isPrefixOf (pyStrip l)

/-!
## The regular expression `python -c ([^"\n][^\n]*)`

In the source the pattern is a raw string broken over two physical lines by
a backslash–newline pair; in a raw string both characters are kept, so the
first character class is `[^"` + an escaped literal newline + `]`, i.e. it
matches any character other than `"` and the newline.  `pycTryAt` attempts
the (anchored) match at the head of the string: the literal `python -c `,
then one character that is neither `"` nor a newline, then greedily all
following non-newline characters.  It returns group 1 and the remainder of
the string after the match.
-/

/-- Attempt the regex match at the start of `s`; on success return
`(group 1, rest of the string after the match)`. -/
def pycTryAt (s : Line) : Option (Line × Line) :=
  if pycLit.isPrefixOf s then
    match s.drop pycLit.length with
    | [] => none
    | c :: t =>
      if c = dquote || c = '\n' then none
      else some (c :: t.takeWhile (fun x => x ≠ '\n'), t.dropWhile (fun x => x ≠ '\n'))
  else none

/-- `re.search`: the leftmost match.  Returns
`(text before the match, group 1, text after the match)`. -/
def pycSearch : Line → Option (Line × Line × Line)
  | [] => none
  | c :: t =>
    match pycTryAt (c :: t) with
    | some (g, rest) => some ([], g, rest)
    | none => (pycSearch t).map (fun pr => (c :: pr.1, pr.2.1, pr.2.2))

/-!
## `re.sub` replacement templates

Python parses the replacement string of `re.sub`: `\n`, `\t`, … become
control characters, `\\` a single backslash, `\0` (with up to two more
octal digits) and `\ooo` octal escapes, `\1`…`\99` and `\g<n>` group
references (the pattern used by the script has no groups, so every
reference other than group 0 is an error), `\g<0>` the whole match, a
backslash before another ASCII letter is an error, and a backslash before
any other character is kept literally.  Error messages abbreviate
CPython's.
-/

/-- One item of a parsed replacement template: a literal character or a
reference to group 0 (the whole match). -/
inductive TItem where
  | lit (c : Char)
  | grp0
  deriving DecidableEq, Repr

/-- Substitute the match text `m` for the group-0 references. -/
def fillTemplate (m : Line) : List TItem → Line
  | [] => []
  | TItem.lit c :: t => c :: fillTemplate m t
  | TItem.grp0 :: t => m ++ fillTemplate m t

def isDigitCh (c : Char) : Bool := '0' ≤ c && c ≤ '9'

def isOctDigit (c : Char) : Bool := '0' ≤ c && c ≤ '7'

def octVal (c : Char) : Nat := c.toNat - 48

def isAsciiLetterCh (c : Char) : Bool := ('a' ≤ c && c ≤ 'z') || ('A' ≤ c && c ≤ 'Z')

def isIdentCh (c : Char) : Bool := isAsciiLetterCh c || isDigitCh c || c = '_'

/-- Approximation of Python's `str.isidentifier` for ASCII names. -/
def isIdentName : Line → Bool
  | [] => false
  | c :: t => (isAsciiLetterCh c || c = '_') && t.all isIdentCh

/-- The `ESCAPES` table used for replacement templates: `\a \b \f \n \r \t
\v \\`. -/
def escMapTpl (c : Char) : Option Char :=
  if c = 'a' then some '\x07'
  else if c = 'b' then some '\x08'
  else if c = 'f' then some '\x0c'
  else if c = 'n' then some '\n'
  else if c = 'r' then some '\r'
  else if c = 't' then some '\t'
  else if c = 'v' then some '\x0b'
  else if c = '\\' then some '\\'
  else none

/-- Parse a replacement template, fuel-indexed so that it reduces by
`decide`; every step consumes at least one character, so the wrapper's
fuel `length + 1` is always sufficient and the fuel-exhausted branch is
unreachable. -/
def parseTemplateF : Nat → Line → Except String (List TItem)
  | 0, _ => .error "replacement parse: fuel exhausted"
  | _ + 1, [] => .ok []
  | fuel + 1, c :: rest =>
    if c ≠ '\\' then (TItem.lit c :: ·) <$> parseTemplateF fuel rest
    else match rest with
    | [] => .error "bad escape (end of pattern)"
    | 'g' :: r1 =>
      match r1 with
      | '<' :: r2 =>
        match r2.dropWhile (fun x => x ≠ '>') with
        | '>' :: r3 =>
          let name := r2.takeWhile (fun x => x ≠ '>')
          if name.isEmpty then .error "missing group name"
          else if name.all isDigitCh then
            if name.all (fun c => c = '0') then
              (TItem.grp0 :: ·) <$> parseTemplateF fuel r3
            else .error "invalid group reference"
          else if isIdentName name then .error "unknown group name"
          else .error "bad character in group name"
        | _ => .error "missing >, unterminated name"
      | _ => .error "missing <"
    | '0' :: r1 =>
      match r1 with
      | d1 :: r2 =>
        if isOctDigit d1 then
          match r2 with
          | d2 :: r3 =>
            if isOctDigit d2 then
              (TItem.lit (Char.ofNat (octVal d1 * 8 + octVal d2)) :: ·) <$>
                parseTemplateF fuel r3
            else (TItem.lit (Char.ofNat (octVal d1)) :: ·) <$> parseTemplateF fuel r2
          | [] => (TItem.lit (Char.ofNat (octVal d1)) :: ·) <$> parseTemplateF fuel r2
        else (TItem.lit '\x00' :: ·) <$> parseTemplateF fuel r1
      | [] => .ok [TItem.lit '\x00']
    | d1 :: r1 =>
      if isDigitCh d1 then
        match r1 with
        | d2 :: r2 =>
          if isDigitCh d2 then
            if isOctDigit d1 && isOctDigit d2 then
              match r2 with
              | d3 :: r3 =>
                if isOctDigit d3 then
                  if octVal d1 * 64 + octVal d2 * 8 + octVal d3 > 255 then
                    .error "octal escape value outside of range 0-0o377"
                  else
                    (TItem.lit (Char.ofNat (octVal d1 * 64 + octVal d2 * 8 + octVal d3)) :: ·) <$>
                      parseTemplateF fuel r3
                else .error "invalid group reference"
              | [] => .error "invalid group reference"
            else .error "invalid group reference"
          else .error "invalid group reference"
        | [] => .error "invalid group reference"
      else
        match escMapTpl d1 with
        | some e => (TItem.lit e :: ·) <$> parseTemplateF fuel r1
        | none =>
          if isAsciiLetterCh d1 then .error "bad escape"
          else (fun l => TItem.lit bsl :: TItem.lit d1 :: l) <$> parseTemplateF fuel r1

/-- Parse a replacement template (wrapper choosing sufficient fuel). -/
def parseTemplate (s : Line) : Except String (List TItem) :=
  parseTemplateF (s.length + 1) s

/-- Replace every (non-overlapping, leftmost-first) match of the pattern in
`s` by the filled template, fuel-indexed; `rest` after a match is a proper
suffix, so fuel `length` suffices. -/
def pycSubAllF (tpl : List TItem) : Nat → Line → Line
  | 0, s => s
  | _ + 1, [] => []
  | fuel + 1, c :: t =>
    match pycTryAt (c :: t) with
    | some (g, rest) => fillTemplate (pycLit ++ g) tpl ++ pycSubAllF tpl fuel rest
    | none => c :: pycSubAllF tpl fuel t

/-- `re.sub` of the pattern over the whole string (wrapper). -/
def pycSubAll (tpl : List TItem) (s : Line) : Line := pycSubAllF tpl s.length s

/-- The replacement string `f'python -c "{code}"'`. -/
def pycQuoted (code : Line) : Line := pycLit ++ dquote :: (code ++ [dquote])

/-- The test `code.startswith('"') or code.startswith("'")`. -/
def startsWithQuote (code : Line) : Bool :=
  code.head? == some dquote || code.head? == some squote

/-- `true` when the string holds no backslash (so the replacement-template
parse is the identity). -/
def noBackslash (s : Line) : Bool := s.all (fun c => c ≠ '\\')

/-!
## The per-line transformation and the scan
-/

/-- One iteration of the `for line in lines` loop.  Input: the
`inside_path_check` flag and the line; output: the new flag and the line to
emit (`none` when the line is skipped), or the propagated `re.error`. -/
def processLine (inside : Bool) (line : Line) : Except String (Bool × Option Line) :=
  if containsSub metaMarker line then .ok (true, none)
  else if inside then
    if trimStartsEndif line then .ok (false, none) else .ok (true, none)
  else if containsSub cowardlyPhrase line then .ok (false, none)
  else
    match pycSearch line with
    | none => .ok (false, some line)
    | some (_, g, _) =>
      let code := pyStrip g
      if startsWithQuote code then .ok (false, some line)
      else
        match parseTemplate (pycQuoted code) with
        | .error e => .error e
        | .ok tpl => .ok (false, some (pycSubAll tpl line))

/-- The whole loop: fold `processLine` over the lines, accumulating
`output_lines`; an exception aborts the program before anything is
written. -/
def processLines (inside : Bool) : List Line → Except String (List Line)
  | [] => .ok []
  | l :: ls =>
    match processLine inside l with
    | .error e => .error e
    | .ok (s', none) => processLines s' ls
    | .ok (s', some o) => (processLines s' ls).map (o :: ·)

/-- Observable outcome of one run: the process exit code, the file written
(path and lines), and the lines printed to stdout. -/
structure Outcome where
  exitCode : Nat
  written : Option (Line × List Line)
  printed : List Line
  deriving DecidableEq, Repr

/-- The whole program.  `argv` is `sys.argv` (script name included);
`readResult` models the filesystem read of `sys.argv[1]` (`none`: the open
or read raises, the uncaught exception terminates the process with exit
code 1).  The output file is opened only after the loop has finished, so
neither a read failure nor an `re.error` writes anything. -/
def runProgram (argv : List Line) (readResult : Option (List Line)) : Outcome :=
  if argv.length ≠ 2 then ⟨1, none, [usageMsg]⟩
  else
    match readResult with
    | none => ⟨1, none, []⟩
    | some ls =>
      match processLines false ls with
      | .error _ => ⟨1, none, []⟩
      | .ok out => ⟨0, some (dstPath, out), [successMsg]⟩

/-- A line none of the filters touches: no guard marker, no error phrase,
no `python -c` match. -/
def unrelatedLine (l : Line) : Bool :=
  !containsSub metaMarker l && !containsSub cowardlyPhrase l && (pycSearch l).isNone

/-!
## Helper lemmas about the scan
-/

theorem processLine_met (s : Bool) (l : Line) (h : containsSub metaMarker l = true) :
    processLine s l = .ok (true, none) := by
  simp [processLine, h]

theorem processLine_inside_not_endif (l : Line) (h : trimStartsEndif l = false) :
    processLine true l = .ok (true, none) := by
  by_cases hm : containsSub metaMarker l <;> simp [processLine, hm, h]

theorem processLine_inside_endif (l : Line) (hm : containsSub metaMarker l = false)
    (h : trimStartsEndif l = true) : processLine true l = .ok (false, none) := by
  simp [processLine, hm, h]

theorem processLine_unrelated (l : Line) (h : unrelatedLine l = true) :
    processLine false l = .ok (false, some l) := by
  have h' := h
  simp only [unrelatedLine, Bool.and_eq_true, Bool.not_eq_true',
    Option.isNone_iff_eq_none] at h'
  obtain ⟨⟨hm, hc⟩, hs⟩ := h'
  simp [processLine, hm, hc, hs]

theorem processLines_cons_drop (s s' : Bool) (l : Line) (ls : List Line)
    (h : processLine s l = .ok (s', none)) :
    processLines s (l :: ls) = processLines s' ls := by
  simp [processLines, h]

theorem processLines_cons_keep (s s' : Bool) (l o : Line) (ls : List Line)
    (h : processLine s l = .ok (s', some o)) :
    processLines s (l :: ls) = (processLines s' ls).map (o :: ·) := by
  simp [processLines, h]

/-- While `inside_path_check` holds, every line with no `endif` start is
dropped and the flag stays set. -/
theorem processLines_true_drop (ls : List Line)
    (h : ∀ r ∈ ls, trimStartsEndif r = false) : processLines true ls = .ok [] := by
  induction ls with
  | nil => rfl
  | cons r rs ih =>
    rw [processLines_cons_drop true true r rs
      (processLine_inside_not_endif r (h r (by simp)))]
    exact ih fun x hx => h x (by simp [hx])

/-- Inside a guard block, lines that restart the block (`METACHARACTERS`)
or are no terminator are dropped; the first terminator without the marker
closes the block and scanning resumes on `post`. -/
theorem processLines_guard (block post : List Line) (term : Line)
    (hb : ∀ b ∈ block, containsSub metaMarker b = true ∨ trimStartsEndif b = false)
    (ht : trimStartsEndif term = true) (htm : containsSub metaMarker term = false) :
    processLines true (block ++ term :: post) = processLines false post := by
  induction block with
  | nil =>
    exact processLines_cons_drop true false term post (processLine_inside_endif term htm ht)
  | cons b bs ih =>
    have hstep : processLine true b = .ok (true, none) := by
      rcases hb b (by simp) with hbm | hbe
      · exact processLine_met true b hbm
      · exact processLine_inside_not_endif b hbe
    rw [List.cons_append, processLines_cons_drop true true b (bs ++ term :: post) hstep]
    exact ih fun x hx => hb x (by simp [hx])

/-- A prefix of untouched lines passes through unchanged. -/
theorem processLines_pre_unrelated (pre ls : List Line)
    (h : ∀ x ∈ pre, unrelatedLine x = true) :
    processLines false (pre ++ ls) = (processLines false ls).map (pre ++ ·) := by
  induction pre with
  | nil => cases h' : processLines false ls <;> simp [h', Except.map]
  | cons x xs ih =>
    rw [List.cons_append, processLines_cons_keep false false x x (xs ++ ls)
      (processLine_unrelated x (h x (by simp)))]
    rw [ih fun y hy => h y (by simp [hy])]
    cases h' : processLines false ls <;> simp [h', Except.map]

/-- A document of untouched lines is reproduced verbatim. -/
theorem processLines_all_unrelated (ls : List Line)
    (h : ∀ x ∈ ls, unrelatedLine x = true) : processLines false ls = .ok ls := by
  have := processLines_pre_unrelated ls [] h
  simpa [processLines, Except.map] using this

/-!
## Helper lemmas about the regular-expression model
-/

theorem pycLit_chars : pycLit = ['p', 'y', 't', 'h', 'o', 'n', ' ', '-', 'c', ' '] := rfl

theorem length_dropWhile_le (p : Char → Bool) (l : Line) :
    (l.dropWhile p).length ≤ l.length := by
  induction l with
  | nil => simp [List.dropWhile]
  | cons c t ih =>
    by_cases hc : p c
    · simp only [List.dropWhile, hc, List.length_cons]
      omega
    · simp [List.dropWhile, hc]

/-- Inversion of a successful anchored match: the string decomposes as the
literal, group 1 and the remainder, and the match consumed at least eleven
characters. -/
theorem pycTryAt_some (s g r : Line) (h : pycTryAt s = some (g, r)) :
    s = pycLit ++ g ++ r ∧ r.length + 11 ≤ s.length := by
  unfold pycTryAt at h
  split at h
  case isFalse => exact absurd h (by simp)
  case isTrue hpre =>
    have hs : pycLit ++ s.drop pycLit.length = s :=
      List.prefix_iff_eq_append.mp (List.isPrefixOf_iff_prefix.mp hpre)
    split at h
    next hd => exact absurd h (by simp)
    next c t hd =>
      split at h
      case isTrue => exact absurd h (by simp)
      case isFalse =>
        simp only [Option.some.injEq, Prod.mk.injEq] at h
        obtain ⟨hg, hr⟩ := h
        subst hg; subst hr
        rw [hd] at hs
        constructor
        · conv_lhs => rw [← hs]
          simp [List.takeWhile_append_dropWhile, List.append_assoc]
        · have h1 : s.length = pycLit.length + (c :: t).length := by
            rw [← hs]; simp
          have h2 := length_dropWhile_le (fun x => x ≠ '\n') t
          have h3 : pycLit.length = 10 := rfl
          simp only [List.length_cons] at h1
          omega

theorem pycSubAllF_nil (tpl : List TItem) (f : Nat) : pycSubAllF tpl f [] = [] := by
  cases f <;> rfl

theorem pycSubAllF_succ_some (tpl : List TItem) (f : Nat) (c : Char) (t g r : Line)
    (h : pycTryAt (c :: t) = some (g, r)) :
    pycSubAllF tpl (f + 1) (c :: t)
      = fillTemplate (pycLit ++ g) tpl ++ pycSubAllF tpl f r := by
  simp [pycSubAllF, h]

theorem pycSubAllF_succ_none (tpl : List TItem) (f : Nat) (c : Char) (t : Line)
    (h : pycTryAt (c :: t) = none) :
    pycSubAllF tpl (f + 1) (c :: t) = c :: pycSubAllF tpl f t := by
  simp [pycSubAllF, h]

/-- The fuel argument of `pycSubAllF` is irrelevant once it covers the
string length. -/
theorem pycSubAllF_irrel (tpl : List TItem) :
    ∀ f1 f2 s, s.length ≤ f1 → s.length ≤ f2 →
      pycSubAllF tpl f1 s = pycSubAllF tpl f2 s := by
  intro f1
  induction f1 with
  | zero =>
    intro f2 s h1 _
    have : s = [] := List.length_eq_zero.mp (Nat.le_zero.mp h1)
    subst this
    rw [pycSubAllF_nil, pycSubAllF_nil]
  | succ f ih =>
    intro f2 s h1 h2
    cases s with
    | nil => rw [pycSubAllF_nil, pycSubAllF_nil]
    | cons c t =>
      cases f2 with
      | zero => simp at h2
      | succ f2' =>
        simp only [List.length_cons] at h1 h2
        cases h' : pycTryAt (c :: t) with
        | none =>
          rw [pycSubAllF_succ_none tpl f c t h', pycSubAllF_succ_none tpl f2' c t h',
            ih f2' t (by omega) (by omega)]
        | some gr =>
          obtain ⟨g, r⟩ := gr
          obtain ⟨-, hlen⟩ := pycTryAt_some _ _ _ h'
          simp only [List.length_cons] at hlen
          rw [pycSubAllF_succ_some tpl f c t g r h', pycSubAllF_succ_some tpl f2' c t g r h',
            ih f2' r (by omega) (by omega)]

/-- `re.sub` in terms of `re.search`: the text before the leftmost match is
kept, the match is replaced by the filled template, and substitution
continues on the remainder. -/
theorem pycSubAll_of_search (tpl : List TItem) (s p g r : Line)
    (h : pycSearch s = some (p, g, r)) :
    pycSubAll tpl s = p ++ fillTemplate (pycLit ++ g) tpl ++ pycSubAll tpl r := by
  induction s generalizing p with
  | nil => simp [pycSearch] at h
  | cons c t ih =>
    rw [pycSearch] at h
    cases h' : pycTryAt (c :: t) with
    | some gr =>
      obtain ⟨g', r'⟩ := gr
      rw [h'] at h
      simp only [Option.some.injEq, Prod.mk.injEq] at h
      obtain ⟨hp, hg, hr⟩ := h
      rw [← hp, ← hg, ← hr]
      obtain ⟨-, hlen⟩ := pycTryAt_some _ _ _ h'
      simp only [List.length_cons] at hlen
      rw [pycSubAll, List.length_cons, pycSubAllF_succ_some tpl t.length c t g' r' h']
      have hirr := pycSubAllF_irrel tpl (List.length t) (List.length r') r'
        (by omega) (by omega)
      rw [hirr, pycSubAll]
      simp
    | none =>
      rw [h'] at h
      cases ht : pycSearch t with
      | none => rw [ht] at h; simp at h
      | some pgr =>
        obtain ⟨p', g', r'⟩ := pgr
        rw [ht] at h
        simp only [Option.map_some', Option.some.injEq, Prod.mk.injEq] at h
        obtain ⟨hp, hg, hr⟩ := h
        rw [hg, hr] at ht
        rw [← hp]
        rw [pycSubAll, List.length_cons, pycSubAllF_succ_none tpl t.length c t h']
        rw [show pycSubAllF tpl t.length t = pycSubAll tpl t from rfl, ih p' ht]
        simp

/-- Parsing a backslash-free replacement gives exactly its characters. -/
theorem parseTemplateF_no_bs :
    ∀ f s, s.length < f → noBackslash s = true →
      parseTemplateF f s = .ok (s.map TItem.lit) := by
  intro f
  induction f with
  | zero => intro s h _; exact absurd h (by omega)
  | succ f ih =>
    intro s h hb
    cases s with
    | nil => rfl
    | cons c t =>
      simp only [noBackslash, List.all_cons, Bool.and_eq_true, decide_eq_true_eq] at hb
      obtain ⟨hc, ht⟩ := hb
      simp only [List.length_cons] at h
      have hrec := ih t (by omega) (by simpa [noBackslash] using ht)
      simp [parseTemplateF, hc, hrec]

theorem parseTemplate_no_bs (s : Line) (hb : noBackslash s = true) :
    parseTemplate s = .ok (s.map TItem.lit) :=
  parseTemplateF_no_bs (s.length + 1) s (by omega) hb

/-- Filling a template of literals is the identity. -/
theorem fillTemplate_lits (m : Line) (s : Line) :
    fillTemplate m (s.map TItem.lit) = s := by
  induction s with
  | nil => rfl
  | cons c t ih => simp [fillTemplate, ih]

theorem dropWhile_append_all (p : Char → Bool) (l1 l2 : Line)
    (h : ∀ c ∈ l1, p c = true) :
    (l1 ++ l2).dropWhile p = l2.dropWhile p := by
  induction l1 with
  | nil => simp
  | cons c t ih =>
    simp only [List.cons_append, List.dropWhile_cons, h c (by simp)]
    exact ih fun x hx => h x (by simp [hx])

theorem dropWhile_all_nil (p : Char → Bool) (l : Line) (h : ∀ c ∈ l, p c = true) :
    l.dropWhile p = [] := by
  have := dropWhile_append_all p l [] h
  simpa using this

/-- `str.strip` erases appended trailing whitespace: if `code` carries no
leading and no trailing whitespace, stripping `code ++ tws` returns
`code`. -/
theorem pyStrip_append_ws (code tws : Line)
    (h1 : code.dropWhile pyIsSpace = code)
    (h2 : code.reverse.dropWhile pyIsSpace = code.reverse)
    (hw : ∀ c ∈ tws, pyIsSpace c = true) :
    pyStrip (code ++ tws) = code := by
  unfold pyStrip
  cases code with
  | nil =>
    simp only [List.nil_append]
    rw [dropWhile_all_nil _ tws hw]
    rfl
  | cons c t =>
    have hc : pyIsSpace c = false := by
      cases hcp : pyIsSpace c with
      | false => rfl
      | true =>
        rw [List.dropWhile_cons, hcp] at h1
        simp only [if_true] at h1
        have hle := length_dropWhile_le pyIsSpace t
        have hlen := congrArg List.length h1
        simp only [List.length_cons] at hlen
        omega
    rw [List.cons_append, List.dropWhile_cons, hc]
    simp only [if_false, Bool.false_eq_true, List.reverse_cons]
    rw [List.reverse_append, List.append_assoc,
      dropWhile_append_all pyIsSpace tws.reverse (t.reverse ++ [c])
        (fun x hx => hw x (List.mem_reverse.mp hx)),
      show t.reverse ++ [c] = (c :: t).reverse from (List.reverse_cons c t).symm,
      h2, List.reverse_reverse]

/-- The heart of the quoting rule: on a surviving line whose (stripped)
code does not start with a quote and holds no backslash, the whole match
is replaced by `python -c "<stripped code>"` and the rest of the line is
kept. -/
theorem processLine_pyc (line p g r : Line)
    (hm : containsSub metaMarker line = false)
    (hc : containsSub cowardlyPhrase line = false)
    (hs : pycSearch line = some (p, g, r))
    (hq : startsWithQuote (pyStrip g) = false)
    (hb : noBackslash (pyStrip g) = true)
    (hr : r = [] ∨ r = ['\n']) :
    processLine false line = .ok (false, some (p ++ pycQuoted (pyStrip g) ++ r)) := by
  have hnb : noBackslash (pycQuoted (pyStrip g)) = true := by
    simp only [noBackslash, pycQuoted, List.all_append, List.all_cons, Bool.and_eq_true]
    exact ⟨by decide, by decide, by simpa [noBackslash] using hb, by decide⟩
  have htpl := parseTemplate_no_bs _ hnb
  have hsub := pycSubAll_of_search ((pycQuoted (pyStrip g)).map TItem.lit) line p g r hs
  rw [fillTemplate_lits (pycLit ++ g) (pycQuoted (pyStrip g))] at hsub
  have hrest : pycSubAll ((pycQuoted (pyStrip g)).map TItem.lit) r = r := by
    rcases hr with h | h <;> subst h <;> rfl
  rw [hrest] at hsub
  simp [processLine, hm, hc, hs, hq, htpl, hsub]

/-!
## The claims
-/

/-- C1 counterexample.  The claim states that a guard block ends at the
first later line whose trimmed text starts with `endif`.  It is false: the
`METACHARACTERS` test has priority, so a terminator line that itself
contains the marker restarts the block instead of closing it.  For the
input below the claim predicts that processing resumes after the second
line, giving output `["keep"]`; the code drops all three lines. -/
theorem c1_counterexample :
    processLines false
        ["METACHARACTERS".data, " endif METACHARACTERS".data, "keep".data] = .ok [] ∧
      processLines false ["keep".data] = .ok ["keep".data] ∧
      (Except.ok [] : Except String (List Line)) ≠ .ok ["keep".data] :=
  ⟨by decide, by decide, by decide⟩

/-- C1 (amended): a line containing `METACHARACTERS` starts a guard block;
that line, all following lines up to and including the first later line
whose trimmed text starts with `endif` and that does not itself contain
`METACHARACTERS` (lines in between may contain the marker or must not be
terminators), are absent from the output, and the lines after that
terminator are processed normally again. -/
theorem c1_guard_block (l term : Line) (block post : List Line)
    (hl : containsSub metaMarker l = true)
    (hb : block.all (fun b => containsSub metaMarker b || !trimStartsEndif b) = true)
    (ht : trimStartsEndif term = true)
    (htm : containsSub metaMarker term = false) :
    processLines false (l :: (block ++ term :: post)) = processLines false post := by
  rw [processLines_cons_drop false true l (block ++ term :: post)
    (processLine_met false l hl)]
  refine processLines_guard block post term ?_ ht htm
  intro b hbm
  have hball := List.all_eq_true.mp hb b hbm
  simp only [Bool.or_eq_true, Bool.not_eq_true'] at hball
  exact hball

/-- Witness for C1 (amended) on a concrete four-line input. -/
theorem c1_guard_block_witness :
    containsSub metaMarker "x METACHARACTERS\n".data = true ∧
      trimStartsEndif "  endif\n".data = true ∧
      processLines false
          ["x METACHARACTERS\n".data, "rm stuff\n".data, "  endif\n".data, "tail\n".data]
        = processLines false ["tail\n".data] :=
  ⟨by decide, by decide,
    c1_guard_block "x METACHARACTERS\n".data "  endif\n".data ["rm stuff\n".data]
      ["tail\n".data] (by decide) (by decide) (by decide) (by decide)⟩

/-- C2 counterexample.  The claim states that for the fragment
`ifneq (...)` / `  $(error METACHARACTERS found)` / `endif` all three
lines are absent from the output.  It is false: the `ifneq (...)` line
does not contain the marker `METACHARACTERS`, so the guard block only
starts at the `$(error ...)` line and the `ifneq (...)` line is emitted. -/
theorem c2_counterexample :
    processLines false
        ["ifneq (...)\n".data, "  $(error METACHARACTERS found)\n".data, "endif\n".data]
      = .ok ["ifneq (...)\n".data] ∧
      "ifneq (...)\n".data ∈ ["ifneq (...)\n".data] :=
  ⟨by decide, by decide⟩

/-- C2 (amended): for that three-line fragment, the `$(error ...)` line
and the `endif` line are absent from the written `Makefile.ci`, while the
`ifneq (...)` line (which does not contain the marker) is written
unchanged and the program exits successfully. -/
theorem c2_guard_example :
    runProgram ["makefile_ci_patch.py".data, "Makefile".data]
        (some ["ifneq (...)\n".data, "  $(error METACHARACTERS found)\n".data,
          "endif\n".data])
      = ⟨0, some (dstPath, ["ifneq (...)\n".data]), [successMsg]⟩ := by
  decide

/-- C3 counterexample.  The claim states that for a surviving matching
line whose code does not start with a quote, the output wraps the code in
double quotes.  It is false: the rewritten line passes through `re.sub`,
whose replacement template interprets backslash escapes, so for the input
line `run: python -c print\t` (a literal backslash and `t`) the output
holds a real tab character instead of the two characters `\t` —
the output line is not the input's code wrapped in quotes. -/
theorem c3_counterexample :
    processLine false "run: python -c print\\t".data
        = .ok (false, some "run: python -c \"print\t\"".data) ∧
      "run: python -c \"print\t\"".data ≠ "run: python -c \"print\\t\"".data :=
  ⟨by decide, by decide⟩

/-- C3 (amended): for every surviving line matching `python -c <code...>`
(given as its `re.search` decomposition, with the match running to the end
of the line):  if the stripped code portion starts with a single or double
quote, the output line is byte-identical to the input; if it does not,
and it holds no backslash (so the replacement template is literal), the
output line is the text before the match followed by
`python -c "<stripped code>"` and the line terminator. -/
theorem c3_quoting (line p g r : Line)
    (hm : containsSub metaMarker line = false)
    (hc : containsSub cowardlyPhrase line = false)
    (hs : pycSearch line = some (p, g, r))
    (hr : r = [] ∨ r = ['\n']) :
    (startsWithQuote (pyStrip g) = true →
        processLine false line = .ok (false, some line)) ∧
      (startsWithQuote (pyStrip g) = false → noBackslash (pyStrip g) = true →
        processLine false line = .ok (false, some (p ++ pycQuoted (pyStrip g) ++ r))) := by
  constructor
  · intro hq
    simp [processLine, hm, hc, hs, hq]
  · intro hq hb
    exact processLine_pyc line p g r hm hc hs hq hb hr

/-- Witness for C3 (amended), on the claim's own example line
`run: python -c print(1)` and on an already-quoted line. -/
theorem c3_quoting_witness :
    pycSearch "run: python -c print(1)".data
        = some ("run: ".data, "print(1)".data, []) ∧
      processLine false "run: python -c print(1)".data
        = .ok (false, some "run: python -c \"print(1)\"".data) ∧
      processLine false "run: python -c 'ok'".data
        = .ok (false, some "run: python -c 'ok'".data) := by
  refine ⟨by decide, ?_, ?_⟩
  · have h := (c3_quoting "run: python -c print(1)".data "run: ".data "print(1)".data []
        (by decide) (by decide) (by decide) (Or.inl rfl)).2 (by decide) (by decide)
    rw [h]; decide
  · have h := (c3_quoting "run: python -c 'ok'".data "run: ".data "'ok'".data []
        (by decide) (by decide) (by decide) (Or.inl rfl)).1 (by decide)
    rw [h]

/-- C4: a line containing `cowardly refusing to build` met outside a guard
block is never emitted; untouched lines pass through unchanged; and for an
input made of untouched lines plus one line containing the phrase (and not
the guard marker, which would start a guard block), the output is the
input minus that line, exactly one line shorter. -/
theorem c4_error_line_removal :
    (∀ l : Line, containsSub cowardlyPhrase l = true →
        ∃ s', processLine false l = .ok (s', none)) ∧
      (∀ l : Line, unrelatedLine l = true →
        processLine false l = .ok (false, some l)) ∧
      (∀ (pre post : List Line) (l : Line),
        pre.all unrelatedLine = true → post.all unrelatedLine = true →
        containsSub cowardlyPhrase l = true → containsSub metaMarker l = false →
        processLines false (pre ++ l :: post) = .ok (pre ++ post) ∧
          (pre ++ l :: post).length = (pre ++ post).length + 1) := by
  refine ⟨?_, processLine_unrelated, ?_⟩
  · intro l hcow
    by_cases hm : containsSub metaMarker l
    · exact ⟨true, processLine_met false l hm⟩
    · exact ⟨false, by simp [processLine, hm, hcow]⟩
  · intro pre post l hpre hpost hcow hm
    constructor
    · rw [processLines_pre_unrelated pre (l :: post) (List.all_eq_true.mp hpre)]
      rw [processLines_cons_drop false false l post (by simp [processLine, hm, hcow])]
      rw [processLines_all_unrelated post (List.all_eq_true.mp hpost)]
      rfl
    · simp only [List.length_append, List.length_cons]
      omega

/-- Witness for C4 on a concrete three-line input. -/
theorem c4_error_line_removal_witness :
    containsSub cowardlyPhrase "\t$(error cowardly refusing to build)\n".data = true ∧
      processLines false
          ["a:\n".data, "\t$(error cowardly refusing to build)\n".data, "\tb\n".data]
        = .ok ["a:\n".data, "\tb\n".data] :=
  ⟨by decide,
    (c4_error_line_removal.2.2 ["a:\n".data] ["\tb\n".data]
      "\t$(error cowardly refusing to build)\n".data
      (by decide) (by decide) (by decide) (by decide)).1⟩

/-- C5: with any argument count other than one (`len(sys.argv) != 2`) the
program prints the usage message, exits with code 1, and writes nothing. -/
theorem c5_usage_error (prog : Line) (args : List Line) (fs : Option (List Line))
    (h : args.length ≠ 1) :
    runProgram (prog :: args) fs = ⟨1, none, [usageMsg]⟩ := by
  have h2 : (prog :: args).length ≠ 2 := by
    simp only [List.length_cons]
    omega
  rw [runProgram.eq_def, if_pos h2]

/-- Witness for C5 at zero command-line arguments. -/
theorem c5_usage_error_witness :
    ([] : List Line).length ≠ 1 ∧
      runProgram ["makefile_ci_patch.py".data] none = ⟨1, none, [usageMsg]⟩ :=
  ⟨by decide, c5_usage_error "makefile_ci_patch.py".data [] none (by decide)⟩

/-- C6: the transformation is a pure function of the input: two runs on
the same argument vector and the same read file content produce the same
outcome (exit code, written file and printed lines). -/
theorem c6_deterministic (argv : List Line) (fs : Option (List Line)) (o1 o2 : Outcome)
    (h1 : runProgram argv fs = o1) (h2 : runProgram argv fs = o2) : o1 = o2 :=
  h1.symm.trans h2

/-- Witness for C6 on a concrete run. -/
theorem c6_deterministic_witness :
    (⟨0, some (dstPath, ["x\n".data]), [successMsg]⟩ : Outcome)
      = ⟨0, some (dstPath, ["x\n".data]), [successMsg]⟩ :=
  c6_deterministic ["p".data, "m".data] (some ["x\n".data]) _ _ (by decide) (by decide)

/-- C7: when reading the input path fails, the error propagates (exit
code 1, nothing printed) and no output file is created: `Makefile.ci` is
opened for writing only after the input has been fully read and
processed. -/
theorem c7_read_error (prog path : Line) :
    runProgram [prog, path] none = ⟨1, none, []⟩ ∧
      (runProgram [prog, path] none).written = none := by
  constructor <;> simp [runProgram]

/-- C8: a guard block that is never terminated swallows everything to the
end of the input; the program still succeeds and writes the (possibly
empty) remainder. -/
theorem c8_unterminated_guard (l : Line) (rest : List Line) (prog path : Line)
    (hl : containsSub metaMarker l = true)
    (hrest : rest.all (fun r => !trimStartsEndif r) = true) :
    processLines false (l :: rest) = .ok [] ∧
      runProgram [prog, path] (some (l :: rest))
        = ⟨0, some (dstPath, []), [successMsg]⟩ := by
  have h1 : processLines false (l :: rest) = .ok [] := by
    rw [processLines_cons_drop false true l rest (processLine_met false l hl)]
    refine processLines_true_drop rest fun r hr => ?_
    have := List.all_eq_true.mp hrest r hr
    simpa using this
  exact ⟨h1, by simp [runProgram, h1]⟩

/-- Witness for C8 on a concrete unterminated input. -/
theorem c8_unterminated_guard_witness :
    containsSub metaMarker "check METACHARACTERS\n".data = true ∧
      processLines false ["check METACHARACTERS\n".data, "tail\n".data] = .ok [] :=
  ⟨by decide,
    (c8_unterminated_guard "check METACHARACTERS\n".data ["tail\n".data]
      "p".data "m".data (by decide) (by decide)).1⟩

/-- C9: the `METACHARACTERS` test runs before the inside-block and
terminator tests: in any state, a line containing the marker leaves the
scan inside a guard block and is dropped.  In particular a line that both
contains the marker and trim-starts with `endif` never closes an open
block. -/
theorem c9_marker_priority (s : Bool) (l : Line)
    (h : containsSub metaMarker l = true) :
    processLine s l = .ok (true, none) :=
  processLine_met s l h

/-- Witness for C9: a terminator-shaped line carrying the marker is
dropped and the block stays open. -/
theorem c9_marker_priority_witness :
    containsSub metaMarker "  endif METACHARACTERS\n".data = true ∧
      trimStartsEndif "  endif METACHARACTERS\n".data = true ∧
      processLine true "  endif METACHARACTERS\n".data = .ok (true, none) :=
  ⟨by decide, by decide,
    c9_marker_priority true "  endif METACHARACTERS\n".data (by decide)⟩

/-- C10: the code portion is whitespace-stripped before being wrapped:
when the match's group decomposes as a code part (no leading or trailing
whitespace, no quote at its head, no backslash) followed by trailing
spaces or tabs, the rewritten line holds `python -c "<code>"` with the
trailing whitespace removed, not preserved inside or after the quotes. -/
theorem c10_strip_trailing (line p code tws r : Line)
    (hm : containsSub metaMarker line = false)
    (hc : containsSub cowardlyPhrase line = false)
    (hs : pycSearch line = some (p, code ++ tws, r))
    (hw : tws.all (fun c => c == ' ' || c == '\t') = true)
    (hlead : code.dropWhile pyIsSpace = code)
    (htrail : code.reverse.dropWhile pyIsSpace = code.reverse)
    (hq : startsWithQuote code = false)
    (hb : noBackslash code = true)
    (hr : r = [] ∨ r = ['\n']) :
    processLine false line = .ok (false, some (p ++ pycQuoted code ++ r)) := by
  have hws : ∀ c ∈ tws, pyIsSpace c = true := by
    intro c hcm
    have hct := List.all_eq_true.mp hw c hcm
    simp only [Bool.or_eq_true, beq_iff_eq] at hct
    rcases hct with h | h <;> subst h <;> decide
  have hstrip : pyStrip (code ++ tws) = code :=
    pyStrip_append_ws code tws hlead htrail hws
  have hmain := processLine_pyc line p (code ++ tws) r hm hc hs
    (by rw [hstrip]; exact hq) (by rw [hstrip]; exact hb) hr
  rw [hstrip] at hmain
  exact hmain

/-- Witness for C10: two trailing spaces before the newline are removed by
the rewrite. -/
theorem c10_strip_trailing_witness :
    pycSearch "x: python -c print(1)  \n".data
        = some ("x: ".data, "print(1)".data ++ "  ".data, ['\n']) ∧
      processLine false "x: python -c print(1)  \n".data
        = .ok (false, some "x: python -c \"print(1)\"\n".data) := by
  refine ⟨by decide, ?_⟩
  have h := c10_strip_trailing "x: python -c print(1)  \n".data "x: ".data
    "print(1)".data "  ".data ['\n'] (by decide) (by decide) (by decide)
    (by decide) (by decide) (by decide) (by decide) (by decide) (Or.inr rfl)
  rw [h]; decide
